import Mathlib

/-!
Shallow embedding of the post-processing pipeline of the Engine-DirectX-11
repository (PostProcess.cpp, found in src/Graphics/Shader.cpp lines 617-1306,
together with the PostProcessParams struct of its header).

GPU side effects (draw calls) are modelled as a trace of ApplyEvent records;
nullable COM pointers are modelled as Nat handles with 0 = null, or Option
for structured resources; fallible device calls are driven by a Boolean
oracle recorded in D3DDevice.
-/

/-- The PostProcessEffect enumeration of the header. -/
inductive PostProcessEffect
  | None
  | Grayscale
  | Sepia
  | Invert
  | Blur
  | GaussianBlur
  | Bloom
  | ToneMapping
  | FXAA
  | Vignette
  | ColorCorrection
  | DepthOfField
  | MotionBlur
deriving DecidableEq

/-- Oracle for the fallible ID3D11Device calls made by this subsystem.
Each field records whether the corresponding creation call succeeds:
vertex shader, per-effect pixel shader, constant buffer, sampler state,
and the six creations of PostProcessManager::CreateRenderTargets in
source order (texture1, rtv1, srv1, texture2, rtv2, srv2). -/
structure D3DDevice where
  vsOk : Bool
  psOk : PostProcessEffect → Bool
  bufOk : Bool
  samplerOk : Bool
  tex1Ok : Bool
  rtv1Ok : Bool
  srv1Ok : Bool
  tex2Ok : Bool
  rtv2Ok : Bool
  srv2Ok : Bool

/-- DXGI formats that occur in the model; CreateRenderTargets uses
DXGI_FORMAT_R8G8B8A8_UNORM (8 bits per channel). -/
inductive DXGIFormat
  | R8G8B8A8_UNORM
  | R32G32B32A32_FLOAT
deriving DecidableEq

/-- An ID3D11Texture2D together with the description it was created with. -/
structure Texture2D where
  resourceId : Nat
  width : Int
  height : Int
  format : DXGIFormat
deriving DecidableEq

/-- State of a PostProcessEffect_Base instance.  Shader and buffer members
are validity flags (null / non-null); m_width and m_height are Option
because the C++ constructor leaves them uninitialized. -/
structure PostProcessEffect_Base where
  m_type : PostProcessEffect
  m_enabled : Bool
  m_vertexShader : Bool
  m_pixelShader : Bool
  m_parameterBuffer : Bool
  m_width : Option Int
  m_height : Option Int
deriving DecidableEq

/-- PostProcessEffect_Base constructor (lines 829-836): enabled, with all
shader/buffer members null and dimensions not yet written. -/
def PostProcessEffect_Base.construct (t : PostProcessEffect) : PostProcessEffect_Base :=
  { m_type := t, m_enabled := true, m_vertexShader := false, m_pixelShader := false,
    m_parameterBuffer := false, m_width := Option.none, m_height := Option.none }

/-- PostProcessEffect_Base::Initialize (lines 843-886): rejects a null
device, stores the dimensions, then creates vertex shader, pixel shader and
parameter buffer in order, returning false at the first failure. -/
def PostProcessEffect_Base.Initialize (e : PostProcessEffect_Base)
    (device : Option D3DDevice) (width height : Int) :
    PostProcessEffect_Base × Bool :=
  match device with
  | Option.none => (e, false)
  | Option.some d =>
    let e1 := { e with m_width := Option.some width, m_height := Option.some height }
    if d.vsOk = false then (e1, false)
    else
      let e2 := { e1 with m_vertexShader := true }
      if d.psOk e2.m_type = false then (e2, false)
      else
        let e3 := { e2 with m_pixelShader := true }
        if d.bufOk = false then (e3, false)
        else ({ e3 with m_parameterBuffer := true }, true)

/-- One full-screen draw issued by PostProcessEffect_Base::Apply: which
effect drew, reading which input resource, into which output resource. -/
structure ApplyEvent where
  effectType : PostProcessEffect
  inputTexture : Nat
  outputTarget : Nat
deriving DecidableEq

/-- PostProcessEffect_Base::Apply (lines 900-938): no-op when the context,
input texture or output target is null or the effect is disabled; otherwise
issues the full-screen draw reading inputTexture into outputTarget. -/
def PostProcessEffect_Base.Apply (e : PostProcessEffect_Base)
    (context : Bool) (inputTexture outputTarget : Nat) : List ApplyEvent :=
  if context = false ∨ inputTexture = 0 ∨ outputTarget = 0 ∨ e.m_enabled = false then []
  else [⟨e.m_type, inputTexture, outputTarget⟩]

/-- Byte sizes of the fields of struct PostProcessParams, in declaration
order: intensity, threshold, radius, sigma (float each); colorTint
(XMFLOAT3); contrast, brightness, saturation, gamma (float each);
bloomThreshold, bloomIntensity (float each); bloomBlurPasses (int);
exposure, whitePoint (float each); fxaaSpanMax, fxaaReduceMin,
fxaaReduceMul (float each); vignetteRadius, vignetteSoftness (float each);
vignetteColor (XMFLOAT3).  Every member is a 4-byte-aligned scalar
aggregate, so the struct has no padding. -/
def postProcessParamsFieldSizes : List Nat :=
  [4, 4, 4, 4, 12, 4, 4, 4, 4, 4, 4, 4, 4, 4, 4, 4, 4, 4, 4, 12]

/-- sizeof(PostProcessParams). -/
def sizeofPostProcessParams : Nat := postProcessParamsFieldSizes.sum

/-- PostProcessEffect_Base::GetParameterBufferSize (lines 959-963):
((sizeof(PostProcessParams) + 15) / 16) * 16. -/
def GetParameterBufferSize : Nat := ((sizeofPostProcessParams + 15) / 16) * 16

/-- State of a PostProcessManager.  Views are Nat handles carrying the
resource id of the texture they view (0 = null); m_effects models the
unordered_map as an association list. -/
structure PostProcessManager where
  m_device : Option D3DDevice
  m_width : Int
  m_height : Int
  m_renderTarget1 : Option Texture2D
  m_renderTarget2 : Option Texture2D
  m_renderTargetView1 : Nat
  m_renderTargetView2 : Nat
  m_shaderResourceView1 : Nat
  m_shaderResourceView2 : Nat
  m_samplerState : Bool
  m_effects : List (PostProcessEffect × PostProcessEffect_Base)
  m_effectOrder : List PostProcessEffect

/-- PostProcessManager constructor (lines 1026-1038): everything null/0. -/
def mkPostProcessManager : PostProcessManager :=
  { m_device := Option.none, m_width := 0, m_height := 0,
    m_renderTarget1 := Option.none, m_renderTarget2 := Option.none,
    m_renderTargetView1 := 0, m_renderTargetView2 := 0,
    m_shaderResourceView1 := 0, m_shaderResourceView2 := 0,
    m_samplerState := false, m_effects := [], m_effectOrder := [] }

/-- m_effects.find(t): first association-list entry for key t. -/
def findEffect : List (PostProcessEffect × PostProcessEffect_Base) → PostProcessEffect →
    Option PostProcessEffect_Base
  | [], _ => Option.none
  | (k, e) :: rest, t => if k = t then Option.some e else findEffect rest t

/-- The one shared D3D11_TEXTURE2D_DESC of CreateRenderTargets, applied to
a fresh resource id: m_width x m_height, DXGI_FORMAT_R8G8B8A8_UNORM. -/
def renderTargetTexture (id : Nat) (w h : Int) : Texture2D :=
  { resourceId := id, width := w, height := h, format := DXGIFormat.R8G8B8A8_UNORM }

/-- PostProcessManager::CreateRenderTargets (lines 1240-1286): with a null
device fails; otherwise creates texture1/rtv1/srv1/texture2/rtv2/srv2 in
order, all from one shared description (m_width x m_height,
R8G8B8A8_UNORM), storing each into the member as soon as it is created and
returning false at the first failure without releasing anything. -/
def PostProcessManager.CreateRenderTargets (m : PostProcessManager) :
    PostProcessManager × Bool :=
  match m.m_device with
  | Option.none => (m, false)
  | Option.some d =>
    if d.tex1Ok = false then (m, false)
    else
      let m1 := { m with
        m_renderTarget1 := Option.some (renderTargetTexture 1 m.m_width m.m_height) }
      if d.rtv1Ok = false then (m1, false)
      else
        let m2 := { m1 with m_renderTargetView1 := 1 }
        if d.srv1Ok = false then (m2, false)
        else
          let m3 := { m2 with m_shaderResourceView1 := 1 }
          if d.tex2Ok = false then (m3, false)
          else
            let m4 := { m3 with
              m_renderTarget2 := Option.some (renderTargetTexture 2 m.m_width m.m_height) }
            if d.rtv2Ok = false then (m4, false)
            else
              let m5 := { m4 with m_renderTargetView2 := 2 }
              if d.srv2Ok = false then (m5, false)
              else ({ m5 with m_shaderResourceView2 := 2 }, true)

/-- PostProcessManager::Initialize (lines 1045-1082): rejects a null device,
stores device and dimensions, creates the ping-pong render targets, then the
sampler state, failing at the first sub-resource failure. -/
def PostProcessManager.Initialize (m : PostProcessManager)
    (device : Option D3DDevice) (width height : Int) : PostProcessManager × Bool :=
  match device with
  | Option.none => (m, false)
  | Option.some d =>
    let m1 := { m with m_device := Option.some d, m_width := width, m_height := height }
    let r := PostProcessManager.CreateRenderTargets m1
    if r.snd = false then (r.fst, false)
    else if d.samplerOk = false then (r.fst, false)
    else ({ r.fst with m_samplerState := true }, true)

/-- PostProcessManager::AddEffect (lines 1140-1157): no-op when the
descriptor is already in the map; otherwise constructs and initializes a
fresh instance and, only on success, appends to order list and map. -/
def PostProcessManager.AddEffect (m : PostProcessManager)
    (effectType : PostProcessEffect) : PostProcessManager :=
  if (findEffect m.m_effects effectType).isSome then m
  else
    let r := PostProcessEffect_Base.Initialize
      (PostProcessEffect_Base.construct effectType) m.m_device m.m_width m.m_height
    if r.snd then
      { m with m_effectOrder := m.m_effectOrder ++ [effectType],
               m_effects := m.m_effects ++ [(effectType, r.fst)] }
    else m

/-- PostProcessManager::SetEffectEnabled (lines 1175-1182): toggles the
flag on the mapped instance when present, no-op otherwise. -/
def PostProcessManager.SetEffectEnabled (m : PostProcessManager)
    (t : PostProcessEffect) (enabled : Bool) : PostProcessManager :=
  { m with m_effects := m.m_effects.map fun p =>
      if p.fst = t then (p.fst, { p.snd with m_enabled := enabled }) else p }

/-- The effect loop of PostProcessManager::Process (lines 1204-1233) as a
walk over the remaining order list; rest = [] corresponds to the source's
i == m_effectOrder.size() - 1 test.  Missing or disabled entries are
skipped before the output-target choice and before the ping-pong flip;
applied non-final entries write to the current ping-pong view, after which
the input becomes that target's shader resource view and the flag flips. -/
def PostProcessManager.processChain (m : PostProcessManager) (context : Bool)
    (outputTarget : Nat) :
    List PostProcessEffect → Nat → Bool → List ApplyEvent
  | [], _, _ => []
  | t :: rest, currentInput, useRT1 =>
    match findEffect m.m_effects t with
    | Option.none => PostProcessManager.processChain m context outputTarget rest currentInput useRT1
    | Option.some e =>
      if e.m_enabled = false then
        PostProcessManager.processChain m context outputTarget rest currentInput useRT1
      else
        match rest with
        | [] => PostProcessEffect_Base.Apply e context currentInput outputTarget
        | _ :: _ =>
          PostProcessEffect_Base.Apply e context currentInput
              (if useRT1 then m.m_renderTargetView1 else m.m_renderTargetView2)
            ++ PostProcessManager.processChain m context outputTarget rest
                (if useRT1 then m.m_shaderResourceView1 else m.m_shaderResourceView2)
                (!useRT1)

/-- PostProcessManager::CopyTexture (lines 1288-1306).  The function-local
static copy effect is threaded explicitly: copyEffect is its value before
the call, the second component its value after.  When null it is
constructed and initialized (the Initialize result is kept even on
failure) from the calling manager's current device and dimensions. -/
def PostProcessManager.CopyTexture (m : PostProcessManager) (context : Bool)
    (input output : Nat) (copyEffect : Option PostProcessEffect_Base) :
    List ApplyEvent × Option PostProcessEffect_Base :=
  if context = false ∨ input = 0 ∨ output = 0 then ([], copyEffect)
  else
    let ce :=
      match copyEffect with
      | Option.some e => e
      | Option.none =>
        (PostProcessEffect_Base.Initialize
          (PostProcessEffect_Base.construct PostProcessEffect.None)
          m.m_device m.m_width m.m_height).fst
    (PostProcessEffect_Base.Apply ce context input output, Option.some ce)

/-- PostProcessManager::Process (lines 1184-1238): with a null argument or
an empty order list, falls through to CopyTexture; otherwise walks the
chain starting from the original input with useRT1 = true. -/
def PostProcessManager.Process (m : PostProcessManager) (context : Bool)
    (inputTexture outputTarget : Nat) (copyEffect : Option PostProcessEffect_Base) :
    List ApplyEvent × Option PostProcessEffect_Base :=
  if context = false ∨ inputTexture = 0 ∨ outputTarget = 0 ∨ m.m_effectOrder = [] then
    PostProcessManager.CopyTexture m context inputTexture outputTarget copyEffect
  else
    (PostProcessManager.processChain m context outputTarget m.m_effectOrder inputTexture true,
     copyEffect)

/-- A device on which every creation call succeeds. -/
def devAllOk : D3DDevice :=
  ⟨true, fun _ => true, true, true, true, true, true, true, true, true⟩

/-- A device on which only the second intermediate texture creation fails. -/
def devTex2Fail : D3DDevice :=
  ⟨true, fun _ => true, true, true, true, true, true, false, true, true⟩

/-- A manager initialized at 800x600 on the all-succeeding device. -/
def mgrInit : PostProcessManager :=
  (PostProcessManager.Initialize mkPostProcessManager (Option.some devAllOk) 800 600).fst

/-- mgrInit with chain [Grayscale(enabled), Bloom(disabled)]. -/
def mgrC1 : PostProcessManager :=
  PostProcessManager.SetEffectEnabled
    ((mgrInit.AddEffect PostProcessEffect.Grayscale).AddEffect PostProcessEffect.Bloom)
    PostProcessEffect.Bloom false

/-- mgrInit with chain [Grayscale(disabled)]. -/
def mgrC2 : PostProcessManager :=
  PostProcessManager.SetEffectEnabled (mgrInit.AddEffect PostProcessEffect.Grayscale)
    PostProcessEffect.Grayscale false

/-- mgrInit with chain [Grayscale(enabled), Bloom(disabled), Vignette(enabled)]. -/
def mgrC3 : PostProcessManager :=
  PostProcessManager.SetEffectEnabled
    (((mgrInit.AddEffect PostProcessEffect.Grayscale).AddEffect
        PostProcessEffect.Bloom).AddEffect PostProcessEffect.Vignette)
    PostProcessEffect.Bloom false

/-- A Grayscale effect instance initialized on the all-succeeding device. -/
def effGrayInit : PostProcessEffect_Base :=
  (PostProcessEffect_Base.Initialize
    (PostProcessEffect_Base.construct PostProcessEffect.Grayscale)
    (Option.some devAllOk) 800 600).fst

example : (mgrC1.Process true 10 20 Option.none).fst
    = [⟨PostProcessEffect.Grayscale, 10, 1⟩] := by decide

example : (mgrC2.Process true 10 20 Option.none).fst = [] := by decide

example : (mgrInit.Process true 10 20 Option.none).fst
    = [⟨PostProcessEffect.None, 10, 20⟩] := by decide

example : (mgrC3.Process true 10 20 Option.none).fst
    = [⟨PostProcessEffect.Grayscale, 10, 1⟩, ⟨PostProcessEffect.Vignette, 1, 20⟩] := by decide

example : mgrC3.m_effectOrder
    = [PostProcessEffect.Grayscale, PostProcessEffect.Bloom, PostProcessEffect.Vignette] := by decide

/-- Well-formed view handles of a manager whose render targets were
created: each shader resource view aliases the resource of the matching
render target view, and both are non-null. -/
structure ViewsOk (m : PostProcessManager) : Prop where
  srv1_eq : m.m_shaderResourceView1 = m.m_renderTargetView1
  srv2_eq : m.m_shaderResourceView2 = m.m_renderTargetView2
  srv1_ne : m.m_shaderResourceView1 ≠ 0
  srv2_ne : m.m_shaderResourceView2 ≠ 0

/-- Number of entries for a key in the effect map. -/
def countKey : List (PostProcessEffect × PostProcessEffect_Base) → PostProcessEffect → Nat
  | [], _ => 0
  | (k, _) :: rest, t => (if k = t then 1 else 0) + countKey rest t

/-- Number of occurrences of a descriptor in the order list. -/
def countOrder : List PostProcessEffect → PostProcessEffect → Nat
  | [], _ => 0
  | x :: rest, t => (if x = t then 1 else 0) + countOrder rest t

/-- The alternating sequence of ping-pong targets of a given length,
starting from the given useRT1 flag. -/
def pingPongOutputs (rtv1 rtv2 : Nat) : Bool → Nat → List Nat
  | _, 0 => []
  | u, Nat.succ k => (if u then rtv1 else rtv2) :: pingPongOutputs rtv1 rtv2 (!u) k

/-- Any event produced by PostProcessEffect_Base.Apply reads the given
input and writes the given output with the effect's own type. -/
theorem mem_Apply {e : PostProcessEffect_Base} {c : Bool} {a b : Nat} {ev : ApplyEvent}
    (h : ev ∈ PostProcessEffect_Base.Apply e c a b) :
    ev = ⟨e.m_type, a, b⟩ := by
  unfold PostProcessEffect_Base.Apply at h
  split at h
  · simp at h
  · simpa using h

/-- Any event produced by CopyTexture writes the given output. -/
theorem mem_CopyTexture {m : PostProcessManager} {c : Bool} {a b : Nat}
    {cs : Option PostProcessEffect_Base} {ev : ApplyEvent}
    (h : ev ∈ (PostProcessManager.CopyTexture m c a b cs).fst) :
    ev.inputTexture = a ∧ ev.outputTarget = b := by
  unfold PostProcessManager.CopyTexture at h
  split at h
  · simp at h
  · have := mem_Apply h
    subst this
    exact ⟨rfl, rfl⟩

/-- Claim C1 (code bug): with an initialized manager whose chain is
[Grayscale(enabled), Bloom(disabled)] and valid arguments, Process renders
Grayscale into intermediate surface 1 and never writes the final output
target (resource 20): the final output is written zero times, not exactly
once by the last enabled effect. -/
theorem c1_trailing_disabled_entry_leaves_final_output_unwritten :
    (mgrC1.Process true 10 20 Option.none).fst
        = [⟨PostProcessEffect.Grayscale, 10, 1⟩] ∧
    (mgrC1.Process true 10 20 Option.none).fst.filter
        (fun ev => decide (ev.outputTarget = 20)) = [] := by
  refine ⟨by decide, by decide⟩

/-- Claim C2 (code bug): with an initialized manager whose chain is
[Grayscale(disabled)] and valid arguments, Process issues no draw at all —
in particular no copy into the final output — whereas with an empty chain
the direct copy into the final output does happen. -/
theorem c2_all_disabled_chain_performs_no_copy :
    (mgrC2.Process true 10 20 Option.none).fst = [] ∧
    (mgrInit.Process true 10 20 Option.none).fst
        = [⟨PostProcessEffect.None, 10, 20⟩] := by
  refine ⟨by decide, by decide⟩

/-- Claim C4, counterexample: Initialize with zero dimensions succeeds on a
device where every creation succeeds (it is not rejected and it mutates the
stored dimensions), and Apply with input and output referring to the same
resource (id 7) performs the draw instead of being a no-op. -/
theorem c4_counterexample_dims_and_aliasing_unchecked :
    ((PostProcessEffect_Base.Initialize
        (PostProcessEffect_Base.construct PostProcessEffect.Grayscale)
        (Option.some devAllOk) 0 0).snd = true ∧
      (PostProcessEffect_Base.Initialize
        (PostProcessEffect_Base.construct PostProcessEffect.Grayscale)
        (Option.some devAllOk) 0 0).fst.m_width = Option.some 0) ∧
    PostProcessEffect_Base.Apply effGrayInit true 7 7
        = [⟨PostProcessEffect.Grayscale, 7, 7⟩] := by
  refine ⟨⟨by decide, by decide⟩, by decide⟩

/-- Claim C4 (amended): Apply with a null context, null input texture or
null output target does nothing; Initialize with a null device fails
without side effects; but dimensions are not validated — Initialize's
success depends only on the device's shader and buffer creations, never on
width or height — and input==output aliasing is not rejected: an enabled
effect draws with the same resource as input and output. -/
theorem c4_null_guards_only (e : PostProcessEffect_Base) (i o : Nat) (w h : Int)
    (d : D3DDevice) (he : e.m_enabled = true) (hi : i ≠ 0) :
    PostProcessEffect_Base.Apply e false i o = [] ∧
    PostProcessEffect_Base.Apply e true 0 o = [] ∧
    PostProcessEffect_Base.Apply e true i 0 = [] ∧
    PostProcessEffect_Base.Initialize e Option.none w h = (e, false) ∧
    (PostProcessEffect_Base.Initialize e (Option.some d) w h).snd
        = (d.vsOk && (d.psOk e.m_type && d.bufOk)) ∧
    PostProcessEffect_Base.Apply e true i i = [⟨e.m_type, i, i⟩] := by
  refine ⟨by simp [PostProcessEffect_Base.Apply], by simp [PostProcessEffect_Base.Apply],
    by simp [PostProcessEffect_Base.Apply], rfl, ?_, ?_⟩
  · cases hv : d.vsOk <;> cases hp : d.psOk e.m_type <;> cases hb : d.bufOk <;>
      simp [PostProcessEffect_Base.Initialize, hv, hp, hb]
  · simp [PostProcessEffect_Base.Apply, he, hi]

/-- Witness for c4_null_guards_only at a concrete enabled effect. -/
theorem c4_null_guards_only_witness :
    PostProcessEffect_Base.Apply effGrayInit false 10 20 = [] ∧
    PostProcessEffect_Base.Apply effGrayInit true 0 20 = [] ∧
    PostProcessEffect_Base.Apply effGrayInit true 10 0 = [] ∧
    PostProcessEffect_Base.Initialize effGrayInit Option.none 800 600 = (effGrayInit, false) ∧
    (PostProcessEffect_Base.Initialize effGrayInit (Option.some devAllOk) 800 600).snd
        = (devAllOk.vsOk && (devAllOk.psOk effGrayInit.m_type && devAllOk.bufOk)) ∧
    PostProcessEffect_Base.Apply effGrayInit true 10 10
        = [⟨effGrayInit.m_type, 10, 10⟩] :=
  c4_null_guards_only effGrayInit 10 20 800 600 devAllOk (by decide) (by decide)

/-- Claim C6: AddEffect is atomic on failure — when the descriptor is not
yet active and the fresh instance's Initialize fails, neither the order
list nor the effect map changes; when Initialize succeeds, the descriptor
is appended to the order list and the initialized instance stored. -/
theorem c6_addEffect_atomic_on_failure (m : PostProcessManager)
    (t : PostProcessEffect) (h : findEffect m.m_effects t = Option.none) :
    ((PostProcessEffect_Base.Initialize (PostProcessEffect_Base.construct t)
        m.m_device m.m_width m.m_height).snd = false →
      m.AddEffect t = m) ∧
    ((PostProcessEffect_Base.Initialize (PostProcessEffect_Base.construct t)
        m.m_device m.m_width m.m_height).snd = true →
      (m.AddEffect t).m_effectOrder = m.m_effectOrder ++ [t] ∧
      (m.AddEffect t).m_effects = m.m_effects ++
        [(t, (PostProcessEffect_Base.Initialize (PostProcessEffect_Base.construct t)
              m.m_device m.m_width m.m_height).fst)]) := by
  constructor
  · intro hf
    simp [PostProcessManager.AddEffect, h, hf]
  · intro hs
    simp [PostProcessManager.AddEffect, h, hs]

/-- Witness for c6_addEffect_atomic_on_failure: on the fully initialized
manager, Sepia is absent and its Initialize succeeds, so AddEffect appends
it to the order list and the map. -/
theorem c6_addEffect_atomic_on_failure_witness :
    (mgrInit.AddEffect PostProcessEffect.Sepia).m_effectOrder
        = mgrInit.m_effectOrder ++ [PostProcessEffect.Sepia] ∧
    (mgrInit.AddEffect PostProcessEffect.Sepia).m_effects
        = mgrInit.m_effects ++
          [(PostProcessEffect.Sepia,
            (PostProcessEffect_Base.Initialize
              (PostProcessEffect_Base.construct PostProcessEffect.Sepia)
              mgrInit.m_device mgrInit.m_width mgrInit.m_height).fst)] :=
  (c6_addEffect_atomic_on_failure mgrInit PostProcessEffect.Sepia (by decide)).2 (by decide)

/-- Claim C9: the parameter buffer byte size is
((sizeof(PostProcessParams) + 15) / 16) * 16 = 96, which is a multiple of
16, at least sizeof(PostProcessParams), and the least multiple of 16 that
is greater than or equal to it. -/
theorem c9_parameter_buffer_size_aligned :
    GetParameterBufferSize = ((sizeofPostProcessParams + 15) / 16) * 16 ∧
    GetParameterBufferSize = 96 ∧
    16 ∣ GetParameterBufferSize ∧
    sizeofPostProcessParams ≤ GetParameterBufferSize ∧
    ∀ k : Nat, 16 ∣ k → sizeofPostProcessParams ≤ k → GetParameterBufferSize ≤ k := by
  refine ⟨rfl, by decide, by decide, by decide, ?_⟩
  intro k _ hk
  have h96 : sizeofPostProcessParams = 96 := by decide
  have : GetParameterBufferSize = 96 := by decide
  omega

/-- Witness for c9_parameter_buffer_size_aligned: instantiating the
minimality clause at the concrete multiple 112 of 16. -/
theorem c9_parameter_buffer_size_aligned_witness :
    GetParameterBufferSize ≤ 112 :=
  c9_parameter_buffer_size_aligned.2.2.2.2 112 (by decide) (by decide)

/-- Claim C10: the function-local static copy effect is constructed and
initialized only by the first valid CopyTexture call, from that manager's
current device and dimensions (an invalid call constructs nothing); once it
exists, neither CopyTexture nor Process — from any manager, in any state —
ever replaces or re-initializes it. -/
theorem c10_static_copy_effect_initialized_once
    (m m2 : PostProcessManager) (context : Bool) (i o i2 o2 : Nat)
    (e : PostProcessEffect_Base) (hi : i ≠ 0) (ho : o ≠ 0) :
    (m.CopyTexture true i o Option.none).snd
        = Option.some (PostProcessEffect_Base.Initialize
            (PostProcessEffect_Base.construct PostProcessEffect.None)
            m.m_device m.m_width m.m_height).fst ∧
    (m.CopyTexture false i o Option.none).snd = Option.none ∧
    (m2.CopyTexture context i2 o2 (Option.some e)).snd = Option.some e ∧
    (m2.Process context i2 o2 (Option.some e)).snd = Option.some e := by
  refine ⟨?_, ?_, ?_, ?_⟩
  · simp [PostProcessManager.CopyTexture, hi, ho]
  · simp [PostProcessManager.CopyTexture]
  · unfold PostProcessManager.CopyTexture
    split <;> rfl
  · unfold PostProcessManager.Process
    split
    · unfold PostProcessManager.CopyTexture
      split <;> rfl
    · rfl

/-- Witness for c10_static_copy_effect_initialized_once: a first valid copy
from the initialized manager stores the copy effect built from its device
and 800x600 size, and a later call from the untouched default-constructed
manager leaves that instance in place. -/
theorem c10_static_copy_effect_initialized_once_witness :
    (mgrInit.CopyTexture true 10 20 Option.none).snd
        = Option.some (PostProcessEffect_Base.Initialize
            (PostProcessEffect_Base.construct PostProcessEffect.None)
            mgrInit.m_device mgrInit.m_width mgrInit.m_height).fst ∧
    (mgrInit.CopyTexture false 10 20 Option.none).snd = Option.none ∧
    (mkPostProcessManager.CopyTexture true 30 40 (Option.some effGrayInit)).snd
        = Option.some effGrayInit ∧
    (mkPostProcessManager.Process true 30 40 (Option.some effGrayInit)).snd
        = Option.some effGrayInit :=
  c10_static_copy_effect_initialized_once mgrInit mkPostProcessManager true 10 20 30 40
    effGrayInit (by decide) (by decide)

/-- Unfolding: an order-list entry with no mapped instance is skipped. -/
theorem processChain_cons_missing (m : PostProcessManager) (c : Bool) (out : Nat)
    (t : PostProcessEffect) (rest : List PostProcessEffect) (inp : Nat) (u : Bool)
    (hf : findEffect m.m_effects t = Option.none) :
    m.processChain c out (t :: rest) inp u = m.processChain c out rest inp u := by
  simp [PostProcessManager.processChain, hf]

/-- Unfolding: a disabled entry is skipped before the ping-pong flip. -/
theorem processChain_cons_disabled (m : PostProcessManager) (c : Bool) (out : Nat)
    (t : PostProcessEffect) (rest : List PostProcessEffect) (inp : Nat) (u : Bool)
    (e : PostProcessEffect_Base) (hf : findEffect m.m_effects t = Option.some e)
    (he : e.m_enabled = false) :
    m.processChain c out (t :: rest) inp u = m.processChain c out rest inp u := by
  simp [PostProcessManager.processChain, hf, he]

/-- Unfolding: the last listed entry, when enabled, renders to the final
output target. -/
theorem processChain_cons_enabled_last (m : PostProcessManager) (c : Bool) (out : Nat)
    (t : PostProcessEffect) (inp : Nat) (u : Bool)
    (e : PostProcessEffect_Base) (hf : findEffect m.m_effects t = Option.some e)
    (he : e.m_enabled = true) :
    m.processChain c out [t] inp u = PostProcessEffect_Base.Apply e c inp out := by
  simp [PostProcessManager.processChain, hf, he]

/-- Unfolding: an enabled entry that is not last renders to the current
ping-pong target, after which the input becomes that target's shader
resource view and the flag flips. -/
theorem processChain_cons_enabled_mid (m : PostProcessManager) (c : Bool) (out : Nat)
    (t : PostProcessEffect) (rest : List PostProcessEffect) (inp : Nat) (u : Bool)
    (e : PostProcessEffect_Base) (hf : findEffect m.m_effects t = Option.some e)
    (he : e.m_enabled = true) (hne : rest ≠ []) :
    m.processChain c out (t :: rest) inp u =
      PostProcessEffect_Base.Apply e c inp
          (if u then m.m_renderTargetView1 else m.m_renderTargetView2)
        ++ m.processChain c out rest
            (if u then m.m_shaderResourceView1 else m.m_shaderResourceView2) (!u) := by
  cases rest with
  | nil => exact absurd rfl hne
  | cons r rs => simp [PostProcessManager.processChain, hf, he]

/-- In any chain walk of an initialized manager, the first event reads the
walk's starting input, and every later event reads exactly the resource
written by the immediately preceding event. -/
theorem processChain_threads (m : PostProcessManager) (hm : ViewsOk m)
    (out : Nat) (hout : out ≠ 0) :
    ∀ (order : List PostProcessEffect) (inp : Nat) (u : Bool), inp ≠ 0 →
      (∀ ev, (m.processChain true out order inp u).head? = Option.some ev →
          ev.inputTexture = inp) ∧
      List.Chain' (fun a b => b.inputTexture = a.outputTarget)
        (m.processChain true out order inp u) := by
  intro order
  induction order with
  | nil =>
    intro inp u hin
    constructor
    · intro ev hev
      simp [PostProcessManager.processChain] at hev
    · simp [PostProcessManager.processChain]
  | cons t rest ih =>
    intro inp u hin
    rcases hf : findEffect m.m_effects t with _ | e
    · rw [processChain_cons_missing m true out t rest inp u hf]
      exact ih inp u hin
    · by_cases he : e.m_enabled = false
      · rw [processChain_cons_disabled m true out t rest inp u e hf he]
        exact ih inp u hin
      · have he' : e.m_enabled = true := by
          cases h : e.m_enabled
          · exact absurd h he
          · rfl
        cases rest with
        | nil =>
          rw [processChain_cons_enabled_last m true out t inp u e hf he']
          constructor
          · intro ev hev
            simp [PostProcessEffect_Base.Apply, hin, hout, he'] at hev
            subst hev
            rfl
          · simp [PostProcessEffect_Base.Apply, hin, hout, he']
        | cons r rs =>
          rw [processChain_cons_enabled_mid m true out t (r :: rs) inp u e hf he' (by simp)]
          have hrtv : (if u then m.m_renderTargetView1 else m.m_renderTargetView2) ≠ 0 := by
            cases u
            · simpa [hm.srv2_eq] using hm.srv2_ne
            · simpa [hm.srv1_eq] using hm.srv1_ne
          have hsrv : (if u then m.m_shaderResourceView1 else m.m_shaderResourceView2) ≠ 0 := by
            cases u
            · simpa using hm.srv2_ne
            · simpa using hm.srv1_ne
          have hsrv_eq : (if u then m.m_shaderResourceView1 else m.m_shaderResourceView2)
              = (if u then m.m_renderTargetView1 else m.m_renderTargetView2) := by
            cases u
            · simpa using hm.srv2_eq
            · simpa using hm.srv1_eq
          have happ : PostProcessEffect_Base.Apply e true inp
              (if u then m.m_renderTargetView1 else m.m_renderTargetView2)
              = [⟨e.m_type, inp, if u then m.m_renderTargetView1 else m.m_renderTargetView2⟩] := by
            simp [PostProcessEffect_Base.Apply, hin, hrtv, he']
          rw [happ]
          obtain ⟨ihHead, ihChain⟩ := ih
            (if u then m.m_shaderResourceView1 else m.m_shaderResourceView2) (!u) hsrv
          constructor
          · intro ev hev
            simp only [List.cons_append, List.head?_cons] at hev
            cases hev
            rfl
          · rw [List.cons_append, List.chain'_cons']
            constructor
            · intro y hy
              have := ihHead y
              simp only [List.nil_append] at hy
              have hyi := this hy
              rw [hyi, hsrv_eq]
            · simpa using ihChain

/-- Claim C3: in every Process call that runs the chain, the first draw
reads the original input texture and every later draw reads exactly the
resource written by the immediately preceding draw (so disabled entries
neither consume a ping-pong slot nor break the chaining); moreover, for a
chain [A, B, C] whose middle entry B is disabled, Process produces exactly
the walk of the two-entry chain [A, C]. -/
theorem c3_input_chaining_and_disabled_transparency
    (m : PostProcessManager) (hm : ViewsOk m)
    (i o : Nat) (hi : i ≠ 0) (ho : o ≠ 0)
    (A B C : PostProcessEffect) (eB : PostProcessEffect_Base)
    (hB : findEffect m.m_effects B = Option.some eB) (hBdis : eB.m_enabled = false)
    (cs : Option PostProcessEffect_Base) :
    (m.m_effectOrder ≠ [] →
      (∀ ev, (m.Process true i o cs).fst.head? = Option.some ev → ev.inputTexture = i) ∧
      List.Chain' (fun a b => b.inputTexture = a.outputTarget)
        (m.Process true i o cs).fst) ∧
    (m.m_effectOrder = [A, B, C] →
      (m.Process true i o cs).fst = m.processChain true o [A, C] i true) := by
  constructor
  · intro hne
    have hP : (m.Process true i o cs).fst = m.processChain true o m.m_effectOrder i true := by
      simp [PostProcessManager.Process, hi, ho, hne]
    rw [hP]
    exact processChain_threads m hm o ho m.m_effectOrder i true hi
  · intro horder
    have hP : (m.Process true i o cs).fst = m.processChain true o [A, B, C] i true := by
      simp [PostProcessManager.Process, hi, ho, horder]
    rw [hP]
    rcases hA : findEffect m.m_effects A with _ | eA
    · rw [processChain_cons_missing m true o A [B, C] i true hA,
          processChain_cons_missing m true o A [C] i true hA,
          processChain_cons_disabled m true o B [C] i true eB hB hBdis]
    · by_cases heA : eA.m_enabled = false
      · rw [processChain_cons_disabled m true o A [B, C] i true eA hA heA,
            processChain_cons_disabled m true o A [C] i true eA hA heA,
            processChain_cons_disabled m true o B [C] i true eB hB hBdis]
      · have heA' : eA.m_enabled = true := by
          cases h : eA.m_enabled
          · exact absurd h heA
          · rfl
        rw [processChain_cons_enabled_mid m true o A [B, C] i true eA hA heA' (by simp),
            processChain_cons_enabled_mid m true o A [C] i true eA hA heA' (by simp),
            processChain_cons_disabled m true o B [C]
              (if true then m.m_shaderResourceView1 else m.m_shaderResourceView2)
              (!true) eB hB hBdis]

/-- Witness for c3_input_chaining_and_disabled_transparency on the chain
[Grayscale(enabled), Bloom(disabled), Vignette(enabled)]. -/
theorem c3_input_chaining_and_disabled_transparency_witness :
    (mgrC3.m_effectOrder ≠ [] →
      (∀ ev, (mgrC3.Process true 10 20 Option.none).fst.head? = Option.some ev →
          ev.inputTexture = 10) ∧
      List.Chain' (fun a b => b.inputTexture = a.outputTarget)
        (mgrC3.Process true 10 20 Option.none).fst) ∧
    (mgrC3.m_effectOrder = [PostProcessEffect.Grayscale, PostProcessEffect.Bloom,
        PostProcessEffect.Vignette] →
      (mgrC3.Process true 10 20 Option.none).fst
        = mgrC3.processChain true 20
            [PostProcessEffect.Grayscale, PostProcessEffect.Vignette] 10 true) :=
  c3_input_chaining_and_disabled_transparency mgrC3
    ⟨by decide, by decide, by decide, by decide⟩ 10 20 (by decide) (by decide)
    PostProcessEffect.Grayscale PostProcessEffect.Bloom PostProcessEffect.Vignette
    ⟨PostProcessEffect.Bloom, false, true, true, true, Option.some 800, Option.some 600⟩
    (by decide) (by decide) Option.none

/-- Looking a key up past a prefix that does not contain it. -/
theorem findEffect_append_of_none (l1 l2 : List (PostProcessEffect × PostProcessEffect_Base))
    (t : PostProcessEffect) (h : findEffect l1 t = Option.none) :
    findEffect (l1 ++ l2) t = findEffect l2 t := by
  induction l1 with
  | nil => rfl
  | cons p rest ih =>
    obtain ⟨k, e⟩ := p
    by_cases hk : k = t
    · simp [findEffect, hk] at h
    · simp only [findEffect, List.cons_append, if_neg hk] at h ⊢
      exact ih h

/-- A key absent from the map occurs zero times. -/
theorem countKey_eq_zero_of_findEffect_none
    (l : List (PostProcessEffect × PostProcessEffect_Base)) (t : PostProcessEffect)
    (h : findEffect l t = Option.none) : countKey l t = 0 := by
  induction l with
  | nil => rfl
  | cons p rest ih =>
    obtain ⟨k, e⟩ := p
    by_cases hk : k = t
    · simp [findEffect, hk] at h
    · simp only [findEffect, if_neg hk] at h
      simp [countKey, hk, ih h]

/-- countKey distributes over append. -/
theorem countKey_append (l1 l2 : List (PostProcessEffect × PostProcessEffect_Base))
    (t : PostProcessEffect) :
    countKey (l1 ++ l2) t = countKey l1 t + countKey l2 t := by
  induction l1 with
  | nil => simp [countKey]
  | cons p rest ih =>
    obtain ⟨k, e⟩ := p
    simp [countKey, ih, Nat.add_assoc]

/-- A descriptor absent from the order list occurs zero times. -/
theorem countOrder_eq_zero_of_not_mem (l : List PostProcessEffect)
    (t : PostProcessEffect) (h : t ∉ l) : countOrder l t = 0 := by
  induction l with
  | nil => rfl
  | cons x rest ih =>
    have hx : ¬ x = t := fun he => h (he ▸ List.mem_cons_self x rest)
    have hrest : t ∉ rest := fun hr => h (List.mem_cons_of_mem x hr)
    simp [countOrder, hx, ih hrest]

/-- countOrder distributes over append. -/
theorem countOrder_append (l1 l2 : List PostProcessEffect) (t : PostProcessEffect) :
    countOrder (l1 ++ l2) t = countOrder l1 t + countOrder l2 t := by
  induction l1 with
  | nil => simp [countOrder]
  | cons x rest ih => simp [countOrder, ih, Nat.add_assoc]

/-- AddEffect on an already-present descriptor is the identity. -/
theorem AddEffect_of_isSome (m : PostProcessManager) (t : PostProcessEffect)
    (h : (findEffect m.m_effects t).isSome = true) : m.AddEffect t = m := by
  unfold PostProcessManager.AddEffect
  rw [if_pos h]

/-- Claim C5: AddEffect is idempotent — whenever the descriptor is already
active, AddEffect leaves the manager (map and order list) unchanged; and
starting from a state where the descriptor is absent and its instance
initializes successfully, two AddEffect calls in a row leave exactly one
map entry and exactly one order-list entry for it. -/
theorem c5_addEffect_idempotent (m m0 : PostProcessManager) (t : PostProcessEffect)
    (h : (findEffect m.m_effects t).isSome = true)
    (h0 : findEffect m0.m_effects t = Option.none)
    (h1 : t ∉ m0.m_effectOrder)
    (h2 : (PostProcessEffect_Base.Initialize (PostProcessEffect_Base.construct t)
            m0.m_device m0.m_width m0.m_height).snd = true) :
    m.AddEffect t = m ∧
    countKey ((m0.AddEffect t).AddEffect t).m_effects t = 1 ∧
    countOrder ((m0.AddEffect t).AddEffect t).m_effectOrder t = 1 := by
  have heff : (m0.AddEffect t).m_effects = m0.m_effects ++
      [(t, (PostProcessEffect_Base.Initialize (PostProcessEffect_Base.construct t)
            m0.m_device m0.m_width m0.m_height).fst)] := by
    simp [PostProcessManager.AddEffect, h0, h2]
  have hord : (m0.AddEffect t).m_effectOrder = m0.m_effectOrder ++ [t] := by
    simp [PostProcessManager.AddEffect, h0, h2]
  have hfind1 : (findEffect (m0.AddEffect t).m_effects t).isSome = true := by
    rw [heff, findEffect_append_of_none _ _ _ h0]
    simp [findEffect]
  have hnoop : (m0.AddEffect t).AddEffect t = m0.AddEffect t :=
    AddEffect_of_isSome (m0.AddEffect t) t hfind1
  refine ⟨AddEffect_of_isSome m t h, ?_, ?_⟩
  · rw [hnoop, heff, countKey_append, countKey_eq_zero_of_findEffect_none _ _ h0]
    simp [countKey]
  · rw [hnoop, hord, countOrder_append, countOrder_eq_zero_of_not_mem _ _ h1]
    simp [countOrder]

/-- Witness for c5_addEffect_idempotent: Grayscale is already active in
mgrC1, and adding Grayscale twice to the freshly initialized manager leaves
exactly one map entry and one order entry. -/
theorem c5_addEffect_idempotent_witness :
    mgrC1.AddEffect PostProcessEffect.Grayscale = mgrC1 ∧
    countKey ((mgrInit.AddEffect PostProcessEffect.Grayscale).AddEffect
        PostProcessEffect.Grayscale).m_effects PostProcessEffect.Grayscale = 1 ∧
    countOrder ((mgrInit.AddEffect PostProcessEffect.Grayscale).AddEffect
        PostProcessEffect.Grayscale).m_effectOrder PostProcessEffect.Grayscale = 1 :=
  c5_addEffect_idempotent mgrC1 mgrInit PostProcessEffect.Grayscale
    (by decide) (by decide) (by decide) (by decide)

/-- Claim C7, counterexample: on a device where the second intermediate
texture creation fails (all earlier creations succeed), manager
initialization reports failure but the first surface of the pair is NOT
released — it remains stored in the manager, so the pair is not left
empty. -/
theorem c7_counterexample_partial_failure_not_released :
    (mkPostProcessManager.Initialize (Option.some devTex2Fail) 800 600).snd = false ∧
    (mkPostProcessManager.Initialize (Option.some devTex2Fail) 800 600).fst.m_renderTarget1
        = Option.some (renderTargetTexture 1 800 600) ∧
    (mkPostProcessManager.Initialize (Option.some devTex2Fail) 800 600).fst.m_renderTarget2
        = Option.none := by
  refine ⟨by decide, by decide, by decide⟩

/-- Claim C7 (amended): CreateRenderTargets allocates both offscreen
surfaces with identical dimensions and identical 8-bit-per-channel format
(one shared description), but it does not fail atomically: when an
allocation fails it returns failure immediately, keeping every surface
allocated so far in the manager state instead of releasing it (here shown
for a failure of the second texture creation). -/
theorem c7_createRenderTargets_shape (m : PostProcessManager) (d : D3DDevice)
    (hd : m.m_device = Option.some d) :
    (d.tex1Ok = true → d.rtv1Ok = true → d.srv1Ok = true → d.tex2Ok = true →
     d.rtv2Ok = true → d.srv2Ok = true →
      (m.CreateRenderTargets).snd = true ∧
      (m.CreateRenderTargets).fst.m_renderTarget1
          = Option.some (renderTargetTexture 1 m.m_width m.m_height) ∧
      (m.CreateRenderTargets).fst.m_renderTarget2
          = Option.some (renderTargetTexture 2 m.m_width m.m_height)) ∧
    (d.tex1Ok = true → d.rtv1Ok = true → d.srv1Ok = true → d.tex2Ok = false →
      (m.CreateRenderTargets).snd = false ∧
      (m.CreateRenderTargets).fst.m_renderTarget1
          = Option.some (renderTargetTexture 1 m.m_width m.m_height) ∧
      (m.CreateRenderTargets).fst.m_renderTarget2 = m.m_renderTarget2) := by
  constructor
  · intro h1 h2 h3 h4 h5 h6
    refine ⟨?_, ?_, ?_⟩ <;>
      simp [PostProcessManager.CreateRenderTargets, hd, h1, h2, h3, h4, h5, h6]
  · intro h1 h2 h3 h4
    refine ⟨?_, ?_, ?_⟩ <;>
      simp [PostProcessManager.CreateRenderTargets, hd, h1, h2, h3, h4]

/-- Witness for c7_createRenderTargets_shape on the initialized manager and
the all-succeeding device. -/
theorem c7_createRenderTargets_shape_witness :
    (mgrInit.CreateRenderTargets).snd = true ∧
    (mgrInit.CreateRenderTargets).fst.m_renderTarget1
        = Option.some (renderTargetTexture 1 mgrInit.m_width mgrInit.m_height) ∧
    (mgrInit.CreateRenderTargets).fst.m_renderTarget2
        = Option.some (renderTargetTexture 2 mgrInit.m_width mgrInit.m_height) :=
  (c7_createRenderTargets_shape mgrInit devAllOk rfl).1 rfl rfl rfl rfl rfl rfl

/-- Every draw of a chain walk targets either the final output or one of
the manager's two ping-pong render target views — no other surface. -/
theorem processChain_outputs (m : PostProcessManager) (c : Bool) (out : Nat) :
    ∀ (order : List PostProcessEffect) (inp : Nat) (u : Bool) (ev : ApplyEvent),
      ev ∈ m.processChain c out order inp u →
      ev.outputTarget = out ∨ ev.outputTarget = m.m_renderTargetView1 ∨
        ev.outputTarget = m.m_renderTargetView2 := by
  intro order
  induction order with
  | nil =>
    intro inp u ev hev
    simp [PostProcessManager.processChain] at hev
  | cons t rest ih =>
    intro inp u ev hev
    rcases hf : findEffect m.m_effects t with _ | e
    · rw [processChain_cons_missing m c out t rest inp u hf] at hev
      exact ih inp u ev hev
    · by_cases he : e.m_enabled = false
      · rw [processChain_cons_disabled m c out t rest inp u e hf he] at hev
        exact ih inp u ev hev
      · have he' : e.m_enabled = true := by
          cases h : e.m_enabled
          · exact absurd h he
          · rfl
        cases rest with
        | nil =>
          rw [processChain_cons_enabled_last m c out t inp u e hf he'] at hev
          have := mem_Apply hev
          subst this
          exact Or.inl rfl
        | cons r rs =>
          rw [processChain_cons_enabled_mid m c out t (r :: rs) inp u e hf he' (by simp)] at hev
          rcases List.mem_append.mp hev with hl | hr
          · have := mem_Apply hl
            subst this
            cases u
            · exact Or.inr (Or.inr rfl)
            · exact Or.inr (Or.inl rfl)
          · exact ih _ _ ev hr

/-- In a chain walk of an initialized manager with a final target distinct
from both ping-pong views, the successive intermediate targets form the
alternating ping-pong sequence that starts at the current flag. -/
theorem processChain_pingpong (m : PostProcessManager) (hm : ViewsOk m)
    (out : Nat) (hout : out ≠ 0)
    (ho1 : out ≠ m.m_renderTargetView1) (ho2 : out ≠ m.m_renderTargetView2) :
    ∀ (order : List PostProcessEffect) (inp : Nat) (u : Bool), inp ≠ 0 →
      ∃ k, ((m.processChain true out order inp u).map (fun ev => ev.outputTarget)).filter
            (fun x => decide (x ≠ out))
          = pingPongOutputs m.m_renderTargetView1 m.m_renderTargetView2 u k := by
  intro order
  induction order with
  | nil =>
    intro inp u hin
    exact ⟨0, by simp [PostProcessManager.processChain, pingPongOutputs]⟩
  | cons t rest ih =>
    intro inp u hin
    rcases hf : findEffect m.m_effects t with _ | e
    · rw [processChain_cons_missing m true out t rest inp u hf]
      exact ih inp u hin
    · by_cases he : e.m_enabled = false
      · rw [processChain_cons_disabled m true out t rest inp u e hf he]
        exact ih inp u hin
      · have he' : e.m_enabled = true := by
          cases h : e.m_enabled
          · exact absurd h he
          · rfl
        cases rest with
        | nil =>
          rw [processChain_cons_enabled_last m true out t inp u e hf he']
          refine ⟨0, ?_⟩
          simp [PostProcessEffect_Base.Apply, hin, hout, he', pingPongOutputs]
        | cons r rs =>
          rw [processChain_cons_enabled_mid m true out t (r :: rs) inp u e hf he' (by simp)]
          have hrtv : (if u then m.m_renderTargetView1 else m.m_renderTargetView2) ≠ 0 := by
            cases u
            · simpa [hm.srv2_eq] using hm.srv2_ne
            · simpa [hm.srv1_eq] using hm.srv1_ne
          have hsrv : (if u then m.m_shaderResourceView1 else m.m_shaderResourceView2) ≠ 0 := by
            cases u
            · simpa using hm.srv2_ne
            · simpa using hm.srv1_ne
          have happ : PostProcessEffect_Base.Apply e true inp
              (if u then m.m_renderTargetView1 else m.m_renderTargetView2)
              = [⟨e.m_type, inp, if u then m.m_renderTargetView1 else m.m_renderTargetView2⟩] := by
            simp [PostProcessEffect_Base.Apply, hin, hrtv, he']
          rw [happ]
          obtain ⟨k, hk⟩ := ih
            (if u then m.m_shaderResourceView1 else m.m_shaderResourceView2) (!u) hsrv
          refine ⟨k + 1, ?_⟩
          have hkeep : ((if u then m.m_renderTargetView1 else m.m_renderTargetView2) ≠ out) := by
            cases u
            · exact fun hcon => ho2 hcon.symm
            · exact fun hcon => ho1 hcon.symm
          simp only [List.cons_append, List.nil_append, List.map_cons, List.filter_cons,
            decide_eq_true_eq]
          rw [if_pos hkeep]
          rw [hk]
          rfl

/-- The direct-copy path writes only to the final output: filtering its
event targets for anything other than the output leaves nothing. -/
theorem CopyTexture_no_intermediate_outputs (m : PostProcessManager) (c : Bool)
    (a b : Nat) (cs : Option PostProcessEffect_Base) :
    (((PostProcessManager.CopyTexture m c a b cs).fst.map
        (fun ev => ev.outputTarget)).filter (fun x => decide (x ≠ b))) = [] := by
  rw [List.filter_eq_nil_iff]
  intro x hx
  obtain ⟨ev, hev, hevx⟩ := List.mem_map.mp hx
  have hout := (mem_CopyTexture hev).2
  rw [← hevx, hout]
  simp

/-- Claim C8: intermediate-surface memory is constant in the chain length —
render-target creation allocates exactly the two intermediate surfaces
(resource ids 1 and 2, from one shared description) whatever the chain
holds; every draw issued by Process targets the final output or one of the
two ping-pong views, never any other surface; and the successive
intermediate targets alternate between the two views starting at view 1. -/
theorem c8_pingpong_bound (m : PostProcessManager) (hm : ViewsOk m)
    (i o : Nat) (hi : i ≠ 0) (ho : o ≠ 0)
    (ho1 : o ≠ m.m_renderTargetView1) (ho2 : o ≠ m.m_renderTargetView2)
    (cs : Option PostProcessEffect_Base) :
    (∀ (m2 : PostProcessManager) (d : D3DDevice), m2.m_device = Option.some d →
      d.tex1Ok = true → d.rtv1Ok = true → d.srv1Ok = true → d.tex2Ok = true →
      d.rtv2Ok = true → d.srv2Ok = true →
      (m2.CreateRenderTargets).fst.m_renderTarget1
          = Option.some (renderTargetTexture 1 m2.m_width m2.m_height) ∧
      (m2.CreateRenderTargets).fst.m_renderTarget2
          = Option.some (renderTargetTexture 2 m2.m_width m2.m_height)) ∧
    (∀ ev ∈ (m.Process true i o cs).fst,
      ev.outputTarget = o ∨ ev.outputTarget = m.m_renderTargetView1 ∨
        ev.outputTarget = m.m_renderTargetView2) ∧
    (∃ k, (((m.Process true i o cs).fst.map (fun ev => ev.outputTarget)).filter
            (fun x => decide (x ≠ o)))
          = pingPongOutputs m.m_renderTargetView1 m.m_renderTargetView2 true k) := by
  refine ⟨?_, ?_, ?_⟩
  · intro m2 d hd h1 h2 h3 h4 h5 h6
    constructor <;>
      simp [PostProcessManager.CreateRenderTargets, hd, h1, h2, h3, h4, h5, h6]
  · intro ev hev
    unfold PostProcessManager.Process at hev
    split at hev
    · exact Or.inl (mem_CopyTexture hev).2
    · exact processChain_outputs m true o m.m_effectOrder i true ev hev
  · unfold PostProcessManager.Process
    split
    · exact ⟨0, CopyTexture_no_intermediate_outputs m true i o cs⟩
    · exact processChain_pingpong m hm o ho ho1 ho2 m.m_effectOrder i true hi

/-- Witness for c8_pingpong_bound on the three-entry chain manager. -/
theorem c8_pingpong_bound_witness :
    (∀ (m2 : PostProcessManager) (d : D3DDevice), m2.m_device = Option.some d →
      d.tex1Ok = true → d.rtv1Ok = true → d.srv1Ok = true → d.tex2Ok = true →
      d.rtv2Ok = true → d.srv2Ok = true →
      (m2.CreateRenderTargets).fst.m_renderTarget1
          = Option.some (renderTargetTexture 1 m2.m_width m2.m_height) ∧
      (m2.CreateRenderTargets).fst.m_renderTarget2
          = Option.some (renderTargetTexture 2 m2.m_width m2.m_height)) ∧
    (∀ ev ∈ (mgrC3.Process true 10 20 Option.none).fst,
      ev.outputTarget = 20 ∨ ev.outputTarget = mgrC3.m_renderTargetView1 ∨
        ev.outputTarget = mgrC3.m_renderTargetView2) ∧
    (∃ k, (((mgrC3.Process true 10 20 Option.none).fst.map
            (fun ev => ev.outputTarget)).filter (fun x => decide (x ≠ 20)))
          = pingPongOutputs mgrC3.m_renderTargetView1 mgrC3.m_renderTargetView2 true k) :=
  c8_pingpong_bound mgrC3 ⟨by decide, by decide, by decide, by decide⟩ 10 20
    (by decide) (by decide) (by decide) (by decide) Option.none
